import Mathlib

/-!
# World Music Lab — verification of the audio-analysis core

Shallow embedding of the feature-extraction and cultural-similarity
pipeline of `src/index.js` (the only file of the repository with
algorithmic content).  Samples, magnitudes, frequencies and scores are
modelled over `ℚ`; JavaScript arrays become `List ℚ`.  Each definition
carries a pointer to the source lines it embeds.
-/

namespace WorldMusicLab

/-! ## String primitives

The cultural scorer of `displayMusicalInsights` compares descriptor
strings with `String.prototype.toLowerCase` and
`String.prototype.includes`.  We embed both over `List Char`. -/

/-- Boolean test that `pat` is a prefix of `l` (character-wise `==`). -/
def charPrefixEq : List Char → List Char → Bool
  | [], _ => true
  | _ :: _, [] => false
  | a :: as, b :: bs => a == b && charPrefixEq as bs

/-- Boolean test that `pat` occurs contiguously inside `l`
(the semantics of JavaScript `String.prototype.includes`). -/
def charContains (pat : List Char) : List Char → Bool
  | [] => charPrefixEq pat []
  | c :: t => charPrefixEq pat (c :: t) || charContains pat t

/-- `hay.includes(needle)` of JavaScript strings. -/
def jsIncludes (hay needle : String) : Bool :=
  charContains needle.toList hay.toList

/-- `s.toLowerCase()` of JavaScript strings (ASCII lowering; all
descriptor strings in the culture table are ASCII). -/
def jsToLowerCase (s : String) : String :=
  String.mk (s.toList.map Char.toLower)

/-! ## Data model

Only the fields that the embedded code reads are modelled.  In the
source, `characteristics.tempo` is a string `"lo-hi"` that
`displayMusicalInsights` parses with `split('-').map(parseInt)`
(src/index.js:1226); we model the record as carrying the two parsed
endpoints directly. -/

/-- The `characteristics` object of a culture record: parsed tempo-range
endpoints plus the rhythm- and scale-descriptor strings. -/
structure CultureCharacteristics where
  tempoLo : ℚ
  tempoHi : ℚ
  rhythm : String
  scales : String
deriving DecidableEq

/-- A record of the static culture table (`getAllCultures()`). -/
structure CultureRecord where
  id : ℕ
  characteristics : CultureCharacteristics
deriving DecidableEq

/-- The fields of a rhythm analysis that the cultural scorer reads
(src/index.js:1228,1235-1238). -/
structure RhythmProfile where
  tempo : ℚ
  regularity : ℚ
  polyrhythmic : Bool
deriving DecidableEq

/-- The result of `identifyScale`: a scale-name string and a confidence
(src/index.js:1241-1243,1319). -/
structure ScaleMatch where
  scale : String
  confidence : ℚ
deriving DecidableEq

/-- One entry of the cultural-match list: `{ culture, score }`
(src/index.js:1246). -/
structure CultureMatch where
  culture : CultureRecord
  score : ℕ
deriving DecidableEq

/-! ## Cultural similarity scorer (src/index.js:1221-1251)

The loop body of `allCultures.forEach` accumulates `score` by a chain of
`score +=` statements; the embedding writes the same additive chain in
source order. -/

/-- The per-record score of the matching loop (src/index.js:1222-1243). -/
def cultureScore (rhythm : RhythmProfile) (scale : ScaleMatch)
    (c : CultureRecord) : ℕ :=
  let ch := c.characteristics
  let avgTempo := (ch.tempoLo + ch.tempoHi) / 2
  let tempoDiff := |rhythm.tempo - avgTempo|
  (if tempoDiff < 15 then 3 else if tempoDiff < 30 then 2
    else if tempoDiff < 50 then 1 else 0)
  + (if (7:ℚ)/10 < rhythm.regularity ∧
        jsIncludes (jsToLowerCase ch.rhythm) "steady" then 2 else 0)
  + (if (7:ℚ)/10 < rhythm.regularity ∧
        jsIncludes (jsToLowerCase ch.rhythm) "regular" then 2 else 0)
  + (if rhythm.polyrhythmic ∧
        jsIncludes (jsToLowerCase ch.rhythm) "complex" then 3 else 0)
  + (if rhythm.polyrhythmic ∧
        jsIncludes (jsToLowerCase ch.rhythm) "polyrhythmic" then 3 else 0)
  + (if jsIncludes scale.scale "Pentatonic" ∧
        jsIncludes (jsToLowerCase ch.scales) "pentatonic" then 3 else 0)
  + (if jsIncludes scale.scale "Minor" ∧
        jsIncludes (jsToLowerCase ch.scales) "minor" then 2 else 0)
  + (if jsIncludes scale.scale "Major" ∧
        jsIncludes (jsToLowerCase ch.scales) "major" then 2 else 0)

/-- The `culturalMatches` array after the `forEach` loop: one entry per
table record with positive score, in table order (src/index.js:1221-1248). -/
def culturalMatchList (rhythm : RhythmProfile) (scale : ScaleMatch)
    (table : List CultureRecord) : List CultureMatch :=
  (table.map (fun c => ⟨c, cultureScore rhythm scale c⟩)).filter
    (fun m => decide (0 < m.score))

/-- Stable descending insertion by score: `x` goes in front of the first
entry whose score does not exceed `x`'s. -/
def insertByScore (x : CultureMatch) : List CultureMatch → List CultureMatch
  | [] => [x]
  | y :: ys => if y.score ≤ x.score then x :: y :: ys else y :: insertByScore x ys

/-- Stable sort by descending score.  The source sorts with
`culturalMatches.sort((a, b) => b.score - a.score)` (src/index.js:1250);
`Array.prototype.sort` is stable, and a stable sort for a total preorder
is unique, so insertion sort produces the same list. -/
def sortByScoreDesc : List CultureMatch → List CultureMatch
  | [] => []
  | x :: xs => insertByScore x (sortByScoreDesc xs)

/-- `topMatches = culturalMatches.sort(...).slice(0, 5)`
(src/index.js:1250-1251). -/
def topMatches (rhythm : RhythmProfile) (scale : ScaleMatch)
    (table : List CultureRecord) : List CultureMatch :=
  (sortByScoreDesc (culturalMatchList rhythm scale table)).take 5

/-- The score string rendered for a match: `${match.score}/10`
(src/index.js:1296). -/
def scoreDisplay (m : CultureMatch) : String :=
  Nat.repr m.score ++ "/10"

/-- The tiered tempo-proximity bonus, written against the midpoint of
the declared tempo range, as §4.6 of the specification words it. -/
def tempoProximityScore (tempo midpoint : ℚ) : ℕ :=
  if |tempo - midpoint| < 15 then 3
  else if |tempo - midpoint| < 30 then 2
  else if |tempo - midpoint| < 50 then 1 else 0

/-- The sum of the seven descriptor bonuses (everything in
`cultureScore` apart from the tempo tier). -/
def descriptorScore (rhythm : RhythmProfile) (scale : ScaleMatch)
    (c : CultureRecord) : ℕ :=
  let ch := c.characteristics
  (if (7:ℚ)/10 < rhythm.regularity ∧
      jsIncludes (jsToLowerCase ch.rhythm) "steady" then 2 else 0)
  + (if (7:ℚ)/10 < rhythm.regularity ∧
        jsIncludes (jsToLowerCase ch.rhythm) "regular" then 2 else 0)
  + (if rhythm.polyrhythmic ∧
        jsIncludes (jsToLowerCase ch.rhythm) "complex" then 3 else 0)
  + (if rhythm.polyrhythmic ∧
        jsIncludes (jsToLowerCase ch.rhythm) "polyrhythmic" then 3 else 0)
  + (if jsIncludes scale.scale "Pentatonic" ∧
        jsIncludes (jsToLowerCase ch.scales) "pentatonic" then 3 else 0)
  + (if jsIncludes scale.scale "Minor" ∧
        jsIncludes (jsToLowerCase ch.scales) "minor" then 2 else 0)
  + (if jsIncludes scale.scale "Major" ∧
        jsIncludes (jsToLowerCase ch.scales) "major" then 2 else 0)

/-! ## Sorting lemmas for the match list -/

theorem mem_insertByScore {a x : CultureMatch} {l : List CultureMatch} :
    a ∈ insertByScore x l ↔ a = x ∨ a ∈ l := by
  induction l with
  | nil => simp [insertByScore]
  | cons y ys ih =>
      by_cases h : y.score ≤ x.score
      · simp [insertByScore, h]
      · simp [insertByScore, h, ih]
        tauto

theorem mem_sortByScoreDesc {a : CultureMatch} {l : List CultureMatch} :
    a ∈ sortByScoreDesc l ↔ a ∈ l := by
  induction l with
  | nil => simp [sortByScoreDesc]
  | cons y ys ih => simp [sortByScoreDesc, mem_insertByScore, ih]

theorem pairwise_insertByScore (x : CultureMatch) {l : List CultureMatch}
    (h : l.Pairwise (fun a b => b.score ≤ a.score)) :
    (insertByScore x l).Pairwise (fun a b => b.score ≤ a.score) := by
  induction l with
  | nil => simp [insertByScore]
  | cons y ys ih =>
      rw [List.pairwise_cons] at h
      by_cases hyx : y.score ≤ x.score
      · rw [insertByScore, if_pos hyx, List.pairwise_cons]
        refine ⟨?_, List.pairwise_cons.mpr h⟩
        intro z hz
        rcases List.mem_cons.mp hz with rfl | hz
        · exact hyx
        · exact le_trans (h.1 z hz) hyx
      · rw [insertByScore, if_neg hyx, List.pairwise_cons]
        refine ⟨?_, ih h.2⟩
        intro z hz
        rcases mem_insertByScore.mp hz with rfl | hz
        · exact le_of_lt (lt_of_not_le hyx)
        · exact h.1 z hz

theorem pairwise_sortByScoreDesc (l : List CultureMatch) :
    (sortByScoreDesc l).Pairwise (fun a b => b.score ≤ a.score) := by
  induction l with
  | nil => simp [sortByScoreDesc]
  | cons y ys ih => exact pairwise_insertByScore y ih

theorem filter_insertByScore (x : CultureMatch) (l : List CultureMatch) (n : ℕ) :
    (insertByScore x l).filter (fun m => m.score == n) =
      if x.score = n then x :: l.filter (fun m => m.score == n)
      else l.filter (fun m => m.score == n) := by
  induction l with
  | nil => by_cases h : x.score = n <;> simp [insertByScore, h]
  | cons y ys ih =>
      by_cases hyx : y.score ≤ x.score
      · rw [insertByScore, if_pos hyx]
        by_cases h : x.score = n <;> simp [List.filter_cons, h]
      · rw [insertByScore, if_neg hyx]
        have hxy : x.score < y.score := lt_of_not_le hyx
        by_cases h : x.score = n
        · have hy : (y.score == n) = false := by
            subst h; exact beq_eq_false_iff_ne.mpr (Nat.ne_of_gt hxy)
          simp [List.filter_cons, hy, ih, h]
        · by_cases hy : y.score = n <;> simp [List.filter_cons, hy, ih, h]

theorem filter_sortByScoreDesc (l : List CultureMatch) (n : ℕ) :
    (sortByScoreDesc l).filter (fun m => m.score == n) =
      l.filter (fun m => m.score == n) := by
  induction l with
  | nil => rfl
  | cons y ys ih =>
      rw [sortByScoreDesc, filter_insertByScore]
      by_cases h : y.score = n
      · simp [List.filter_cons, h, ih]
      · simp [List.filter_cons, h, ih]

/-- C1: every entry of the top-5 similarity result has a strictly
positive score, the result is ordered by descending score, ties keep the
original table order (the per-score sublists of the result form a prefix
of the per-score sublists of the table-ordered match list), and the
result has at most 5 entries. -/
theorem claim_C1 (r : RhythmProfile) (s : ScaleMatch) (table : List CultureRecord) :
    ((topMatches r s table).all fun m => decide (0 < m.score)) = true
    ∧ (topMatches r s table).length ≤ 5
    ∧ (topMatches r s table).Pairwise (fun a b => b.score ≤ a.score)
    ∧ ∀ n : ℕ, (topMatches r s table).filter (fun m => m.score == n)
        <+: (culturalMatchList r s table).filter (fun m => m.score == n) := by
  refine ⟨?_, ?_, ?_, ?_⟩
  · rw [List.all_eq_true]
    intro m hm
    have h1 : m ∈ sortByScoreDesc (culturalMatchList r s table) :=
      List.mem_of_mem_take hm
    have h2 : m ∈ culturalMatchList r s table := mem_sortByScoreDesc.mp h1
    have h3 := (List.mem_filter.mp h2).2
    simpa using h3
  · exact List.length_take_le 5 _
  · exact (pairwise_sortByScoreDesc _).sublist (List.take_sublist 5 _)
  · intro n
    have h := (List.take_prefix 5 (sortByScoreDesc (culturalMatchList r s table))).filter
      (fun m => m.score == n)
    rwa [filter_sortByScoreDesc] at h

/-- C3: the tempo-proximity component of a culture's score is tiered
against the midpoint of the record's declared tempo range — +3 for
|Δ| < 15, +2 for |Δ| < 30, +1 for |Δ| < 50, else +0 — on top of the
descriptor bonuses. -/
theorem claim_C3 (r : RhythmProfile) (s : ScaleMatch) (c : CultureRecord) :
    cultureScore r s c =
      tempoProximityScore r.tempo
        ((c.characteristics.tempoLo + c.characteristics.tempoHi) / 2)
      + descriptorScore r s c := by
  simp only [cultureScore, tempoProximityScore, descriptorScore]
  omega

/-- C7: cultural matching is deterministic — identical rhythm analysis,
scale analysis and culture table always give the identical ordered
similarity result. -/
theorem claim_C7 (r₁ r₂ : RhythmProfile) (s₁ s₂ : ScaleMatch)
    (t₁ t₂ : List CultureRecord)
    (hr : r₁ = r₂) (hs : s₁ = s₂) (ht : t₁ = t₂) :
    topMatches r₁ s₁ t₁ = topMatches r₂ s₂ t₂ := by
  subst hr; subst hs; subst ht; rfl

/-- Closed example inputs exercising the score-stacking paths of the
cultural scorer: a culture record whose rhythm descriptor mentions
steadiness, regularity, complexity and polyrhythm, and whose scale
descriptor mentions both pentatonic and minor material. -/
def stackCulture : CultureRecord :=
  { id := 1,
    characteristics :=
      { tempoLo := 100, tempoHi := 140,
        rhythm := "Complex polyrhythmic layers over a steady regular pulse",
        scales := "Pentatonic minor and major modes" } }

/-- A rhythm analysis that is both highly regular and polyrhythmic. -/
def stackRhythm : RhythmProfile :=
  { tempo := 120, regularity := 9/10, polyrhythmic := true }

/-- A scale analysis whose name contains both `Pentatonic` and `Minor`. -/
def stackScale : ScaleMatch := { scale := "Pentatonic Minor", confidence := 8/10 }

theorem stackCulture_score :
    cultureScore stackRhythm stackScale stackCulture = 18 := by
  simp [cultureScore, stackRhythm, stackScale, stackCulture]
  norm_num
  decide

/-- C10: some inputs give a single culture a score strictly above 10 —
here a "Pentatonic Minor" scale earns both the pentatonic and minor
bonuses and a regular-and-polyrhythmic rhythm stacks four descriptor
bonuses, reaching 18 — yet the result is rendered as `18/10`. -/
theorem claim_C10 :
    10 < cultureScore stackRhythm stackScale stackCulture
    ∧ cultureScore stackRhythm stackScale stackCulture = 18
    ∧ jsIncludes stackScale.scale "Pentatonic" = true
    ∧ jsIncludes stackScale.scale "Minor" = true
    ∧ stackRhythm.polyrhythmic = true
    ∧ topMatches stackRhythm stackScale [stackCulture] =
        [⟨stackCulture, 18⟩]
    ∧ scoreDisplay ⟨stackCulture, 18⟩ = "18/10" := by
  refine ⟨?_, stackCulture_score, by decide, by decide, rfl, ?_, rfl⟩
  · rw [stackCulture_score]; omega
  · simp [topMatches, culturalMatchList, sortByScoreDesc, insertByScore,
      stackCulture_score]

/-- C7 witness: instantiating determinism at concrete equal inputs. -/
theorem claim_C7_witness :
    stackRhythm = stackRhythm ∧ stackScale = stackScale
    ∧ [stackCulture] = [stackCulture]
    ∧ topMatches stackRhythm stackScale [stackCulture] =
        topMatches stackRhythm stackScale [stackCulture] :=
  ⟨rfl, rfl, rfl,
    claim_C7 stackRhythm stackRhythm stackScale stackScale
      [stackCulture] [stackCulture] rfl rfl rfl⟩

/-! ## Spectral analyzer (src/index.js:1450-1519) -/

/-- The result object of `analyzeSpectrum` (src/index.js:1480-1485). -/
structure SpectralProfile where
  spectrum : List ℚ
  centroid : ℚ
  rolloff : ℚ
  brightness : ℚ
deriving DecidableEq

/-- `performFFT` (src/index.js:1488-1495): the simplified magnitude
approximation keeps `|data[i]|` for `i < data.length / 2`, which visits
`⌈length / 2⌉` indices. -/
def performFFT (data : List ℚ) : List ℚ :=
  (data.take ((data.length + 1) / 2)).map (fun x => |x|)

/-- Offsets visited by the window loop of `analyzeSpectrum`
(src/index.js:1456-1464): `i = 0, fftSize*32, 2*fftSize*32, …` while
`i < channelData.length - fftSize`, stopping after `maxWindows = 50`
windows.  The loop index grows monotonically, so the visited offsets are
exactly the multiples `k * fftSize * 32` with `k < 50` below the bound
(truncated subtraction matches the JavaScript loop, which does not run
when the length is at most `fftSize`). -/
def spectralWindowStarts (len : ℕ) : List ℕ :=
  ((List.range 50).filter (fun k => decide (k * (2048 * 32) < len - 2048))).map
    (fun k => k * (2048 * 32))

/-- The running weighted sum of the `calculateSpectralCentroid` loop
(src/index.js:1500-1504), where bin `i` carries frequency
`(i * sampleRate) / (spectrum.length * 2)`. -/
def weightedFreqSum (sampleRate : ℚ) (len : ℕ) : ℕ → List ℚ → ℚ
  | _, [] => 0
  | i, x :: xs =>
      ((i : ℚ) * sampleRate) / ((len : ℚ) * 2) * x
        + weightedFreqSum sampleRate len (i + 1) xs

/-- `calculateSpectralCentroid` (src/index.js:1497-1506). -/
def calculateSpectralCentroid (spectrum : List ℚ) (sampleRate : ℚ) : ℚ :=
  let weightedSum := weightedFreqSum sampleRate spectrum.length 0 spectrum
  let sum := spectrum.sum
  if 0 < sum then weightedSum / sum else 0

/-- The scan of `calculateSpectralRolloff` (src/index.js:1511-1518):
accumulate energy bin by bin and return the bin frequency at the first
index where the cumulative energy reaches the threshold, else 0. -/
def rolloffLoop (sampleRate : ℚ) (len : ℕ) (threshold : ℚ) :
    ℚ → ℕ → List ℚ → ℚ
  | _, _, [] => 0
  | cum, i, x :: xs =>
      if threshold ≤ cum + x then ((i : ℚ) * sampleRate) / ((len : ℚ) * 2)
      else rolloffLoop sampleRate len threshold (cum + x) (i + 1) xs

/-- `calculateSpectralRolloff` (src/index.js:1508-1519), with the
85%-of-total-energy threshold. -/
def calculateSpectralRolloff (spectrum : List ℚ) (sampleRate : ℚ) : ℚ :=
  let totalEnergy := spectrum.sum
  let threshold := totalEnergy * (85 / 100)
  rolloffLoop sampleRate spectrum.length threshold 0 0 spectrum

/-- The `avgSpectrum` array built by `analyzeSpectrum`
(src/index.js:1452-1473): collect up to 50 frame spectra, accumulate
them bin-wise into `Array(fftSize / 2).fill(0)` (every collected frame
is a full `fftSize` slice, so its spectrum has exactly
`fftSize / 2 = 1024` bins, the length of the accumulator), then divide
every bin by the number of frames.  When no frame fits, the JavaScript
average is `0 / 0 = NaN` bin-wise and every comparison against `NaN` is
false downstream; under the rational convention `0 / 0 = 0` the three
scalar outputs of `analyzeSpectrum` coincide with the JavaScript ones
(all are 0 either way). -/
def avgSpectrumOf (channelData : List ℚ) : List ℚ :=
  let fftSize := 2048
  let starts := spectralWindowStarts channelData.length
  let spectrum := starts.map (fun i => performFFT ((channelData.drop i).take fftSize))
  let summed := spectrum.foldl (fun acc spec => List.zipWith (· + ·) acc spec)
      (List.replicate (fftSize / 2) (0 : ℚ))
  summed.map (fun v => v / (spectrum.length : ℚ))

/-- `analyzeSpectrum` (src/index.js:1451-1486): the averaged spectrum
with its centroid, rolloff and brightness = centroid / (sampleRate / 2). -/
def analyzeSpectrum (channelData : List ℚ) (sampleRate : ℚ) : SpectralProfile :=
  let avgSpectrum := avgSpectrumOf channelData
  let spectralCentroid := calculateSpectralCentroid avgSpectrum sampleRate
  let spectralRolloff := calculateSpectralRolloff avgSpectrum sampleRate
  let brightness := spectralCentroid / (sampleRate / 2)
  ⟨avgSpectrum, spectralCentroid, spectralRolloff, brightness⟩

theorem analyzeSpectrum_spectrum (d : List ℚ) (sr : ℚ) :
    (analyzeSpectrum d sr).spectrum = avgSpectrumOf d := by
  simp only [analyzeSpectrum]

theorem analyzeSpectrum_centroid (d : List ℚ) (sr : ℚ) :
    (analyzeSpectrum d sr).centroid =
      calculateSpectralCentroid (avgSpectrumOf d) sr := by
  simp only [analyzeSpectrum]

theorem analyzeSpectrum_rolloff (d : List ℚ) (sr : ℚ) :
    (analyzeSpectrum d sr).rolloff =
      calculateSpectralRolloff (avgSpectrumOf d) sr := by
  simp only [analyzeSpectrum]

theorem analyzeSpectrum_brightness (d : List ℚ) (sr : ℚ) :
    (analyzeSpectrum d sr).brightness =
      calculateSpectralCentroid (avgSpectrumOf d) sr / (sr / 2) := by
  simp only [analyzeSpectrum]

/-! ### Specification-side spectral formulas (§4.4 of the spec) -/

/-- The frequency of bin `i` of a half-length spectrum of `len` bins. -/
def binFrequency (sampleRate : ℚ) (len i : ℕ) : ℚ :=
  ((i : ℚ) * sampleRate) / ((len : ℚ) * 2)

/-- Cumulative energy through bin `i`: the sum of the first `i + 1`
bins. -/
def cumulativeEnergy (spectrum : List ℚ) (i : ℕ) : ℚ :=
  (spectrum.take (i + 1)).sum

/-- The lowest bin index whose cumulative energy reaches 85% of the
total energy (`List.find?` over `List.range` returns the first, hence
least, satisfying index). -/
def lowestRolloffBin (spectrum : List ℚ) : Option ℕ :=
  (List.range spectrum.length).find?
    (fun i => decide (spectrum.sum * (85 / 100) ≤ cumulativeEnergy spectrum i))

/-- Rolloff as the specification words it: the frequency of the lowest
bin at which the cumulative energy reaches 85% of the total, and 0 when
no bin does. -/
def specRolloff (spectrum : List ℚ) (sampleRate : ℚ) : ℚ :=
  match lowestRolloffBin spectrum with
  | some i => binFrequency sampleRate spectrum.length i
  | none => 0

/-- Centroid as the specification words it: the magnitude-weighted mean
bin frequency, 0 when the total magnitude is not positive. -/
def specCentroid (spectrum : List ℚ) (sampleRate : ℚ) : ℚ :=
  let total := spectrum.sum
  if 0 < total then
    (∑ i ∈ Finset.range spectrum.length,
      binFrequency sampleRate spectrum.length i * spectrum.getD i 0) / total
  else 0

/-! ### The rolloff scan returns the first threshold crossing -/

theorem find?_congr {α : Type} {p q : α → Bool} :
    ∀ {l : List α}, (∀ x ∈ l, p x = q x) → l.find? p = l.find? q
  | [], _ => rfl
  | x :: xs, h => by
      have hx := h x (List.mem_cons_self x xs)
      by_cases hp : p x = true
      · rw [List.find?_cons_of_pos _ hp, List.find?_cons_of_pos _ (hx ▸ hp)]
      · rw [List.find?_cons_of_neg _ hp,
          List.find?_cons_of_neg _ (hx ▸ hp)]
        exact find?_congr fun y hy => h y (List.mem_cons_of_mem x hy)

theorem rolloffLoop_eq_find? (sampleRate : ℚ) (len : ℕ) (threshold : ℚ) :
    ∀ (xs : List ℚ) (cum : ℚ) (i : ℕ),
      rolloffLoop sampleRate len threshold cum i xs =
        match (List.range xs.length).find?
            (fun j => decide (threshold ≤ cum + (xs.take (j + 1)).sum)) with
        | some j => ((((i + j : ℕ) : ℚ)) * sampleRate) / ((len : ℚ) * 2)
        | none => 0
  | [], cum, i => rfl
  | x :: xs, cum, i => by
      rw [rolloffLoop]
      by_cases h : threshold ≤ cum + x
      · rw [if_pos h]
        have h0 : (List.range (x :: xs).length).find?
            (fun j => decide (threshold ≤ cum + ((x :: xs).take (j + 1)).sum)) =
            some 0 := by
          rw [List.length_cons, List.range_succ_eq_map]
          exact List.find?_cons_of_pos _ (by simpa using h)
        rw [h0]
        norm_num
      · rw [if_neg h, rolloffLoop_eq_find? sampleRate len threshold xs (cum + x) (i + 1)]
        have h1 : (List.range (x :: xs).length).find?
            (fun j => decide (threshold ≤ cum + ((x :: xs).take (j + 1)).sum)) =
            (((List.range xs.length).find?
              (fun j => decide (threshold ≤ (cum + x) + (xs.take (j + 1)).sum))).map
                Nat.succ) := by
          rw [List.length_cons, List.range_succ_eq_map,
            List.find?_cons_of_neg _ (by simpa using h), List.find?_map]
          congr 1
          apply find?_congr
          intro j _
          simp [List.take_succ_cons, Function.comp]
          constructor <;> intro hj <;> linarith
        rw [h1]
        rcases hfind : (List.range xs.length).find?
            (fun j => decide (threshold ≤ (cum + x) + (xs.take (j + 1)).sum)) with
          _ | j
        · simp
        · simp only [Option.map_some]
          have : i + (j + 1) = i + 1 + j := by omega
          simp [Nat.succ_eq_add_one, this]

/-- A silent (all-zero) spectrum gives rolloff 0: the threshold is 0 and
the very first bin crosses it at frequency 0. -/
theorem calculateSpectralRolloff_replicate_zero (n : ℕ) (sampleRate : ℚ) :
    calculateSpectralRolloff (List.replicate n 0) sampleRate = 0 := by
  cases n with
  | zero => rfl
  | succ m =>
      simp only [calculateSpectralRolloff, List.sum_replicate, smul_zero,
        List.replicate_succ, rolloffLoop]
      norm_num

/-- C4: for every spectrum and sample rate, `calculateSpectralRolloff`
returns the frequency of the lowest bin whose cumulative energy reaches
85% of the total (0 when no bin does), and every silent (all-zero)
spectrum yields rolloff 0. -/
theorem claim_C4 (spectrum : List ℚ) (sampleRate : ℚ) (n : ℕ) :
    calculateSpectralRolloff spectrum sampleRate = specRolloff spectrum sampleRate
    ∧ calculateSpectralRolloff (List.replicate n 0) sampleRate = 0 := by
  refine ⟨?_, calculateSpectralRolloff_replicate_zero n sampleRate⟩
  rw [calculateSpectralRolloff, rolloffLoop_eq_find?, specRolloff, lowestRolloffBin]
  have hcongr : (List.range spectrum.length).find?
      (fun j => decide (spectrum.sum * (85 / 100) ≤ 0 + (spectrum.take (j + 1)).sum)) =
      (List.range spectrum.length).find?
        (fun i => decide (spectrum.sum * (85 / 100) ≤ cumulativeEnergy spectrum i)) := by
    apply find?_congr
    intro j _
    simp [cumulativeEnergy]
  rw [hcongr]
  rcases (List.range spectrum.length).find?
      (fun i => decide (spectrum.sum * (85 / 100) ≤ cumulativeEnergy spectrum i)) with
    _ | j
  · rfl
  · simp [binFrequency]

/-! ### Centroid bounds and the weighted-mean formula -/

theorem weightedFreqSum_nonneg (sampleRate : ℚ) (len : ℕ)
    (hsr : 0 ≤ sampleRate) :
    ∀ (i : ℕ) (xs : List ℚ), (∀ x ∈ xs, 0 ≤ x) →
      0 ≤ weightedFreqSum sampleRate len i xs
  | _, [], _ => le_refl 0
  | i, x :: xs, h => by
      rw [weightedFreqSum]
      have hx : 0 ≤ x := h x (List.mem_cons_self x xs)
      have hrec := weightedFreqSum_nonneg sampleRate len hsr (i + 1) xs
        (fun y hy => h y (List.mem_cons_of_mem x hy))
      have hterm : 0 ≤ ((i : ℚ) * sampleRate) / ((len : ℚ) * 2) * x := by
        apply mul_nonneg _ hx
        apply div_nonneg (mul_nonneg (by positivity) hsr) (by positivity)
      linarith

theorem weightedFreqSum_le (sampleRate : ℚ) (len : ℕ)
    (hsr : 0 ≤ sampleRate) :
    ∀ (i : ℕ) (xs : List ℚ), (∀ x ∈ xs, 0 ≤ x) → i + xs.length ≤ len →
      weightedFreqSum sampleRate len i xs ≤ sampleRate / 2 * xs.sum
  | _, [], _, _ => by simp [weightedFreqSum]
  | i, x :: xs, h, hlen => by
      rw [weightedFreqSum, List.sum_cons, mul_add]
      have hx : 0 ≤ x := h x (List.mem_cons_self x xs)
      have hrec := weightedFreqSum_le sampleRate len hsr (i + 1) xs
        (fun y hy => h y (List.mem_cons_of_mem x hy))
        (by simp only [List.length_cons] at hlen; omega)
      have hlenpos : 0 < (len : ℚ) := by
        have : 0 < len := by simp only [List.length_cons] at hlen; omega
        exact_mod_cast this
      have hfreq : ((i : ℚ) * sampleRate) / ((len : ℚ) * 2) ≤ sampleRate / 2 := by
        have hi : (i : ℚ) ≤ (len : ℚ) := by
          have : i ≤ len := by simp only [List.length_cons] at hlen; omega
          exact_mod_cast this
        rw [div_le_div_iff₀ (by positivity) (by norm_num)]
        nlinarith
      have hterm : ((i : ℚ) * sampleRate) / ((len : ℚ) * 2) * x ≤ sampleRate / 2 * x :=
        mul_le_mul_of_nonneg_right hfreq hx
      linarith

theorem calculateSpectralCentroid_bounds (spectrum : List ℚ) (sampleRate : ℚ)
    (hsr : 0 ≤ sampleRate) (hnn : ∀ x ∈ spectrum, 0 ≤ x) :
    0 ≤ calculateSpectralCentroid spectrum sampleRate
    ∧ calculateSpectralCentroid spectrum sampleRate ≤ sampleRate / 2 := by
  rw [calculateSpectralCentroid]
  by_cases hsum : 0 < spectrum.sum
  · rw [if_pos hsum]
    constructor
    · exact div_nonneg (weightedFreqSum_nonneg sampleRate spectrum.length hsr 0 spectrum hnn)
        (le_of_lt hsum)
    · rw [div_le_iff₀ hsum]
      have := weightedFreqSum_le sampleRate spectrum.length hsr 0 spectrum hnn
        (by omega)
      linarith
  · rw [if_neg hsum]
    exact ⟨le_refl 0, by positivity⟩

theorem weightedFreqSum_eq_sum (sampleRate : ℚ) (len : ℕ) :
    ∀ (xs : List ℚ) (i : ℕ),
      weightedFreqSum sampleRate len i xs =
        ∑ j ∈ Finset.range xs.length,
          (((i + j : ℕ) : ℚ) * sampleRate) / ((len : ℚ) * 2) * xs.getD j 0
  | [], _ => rfl
  | x :: xs, i => by
      rw [weightedFreqSum, weightedFreqSum_eq_sum sampleRate len xs (i + 1),
        List.length_cons, Finset.sum_range_succ']
      have hgd : ∀ j, (x :: xs).getD (j + 1) 0 = xs.getD j 0 := fun j => rfl
      have hsum : ∀ j,
          (((i + (j + 1) : ℕ) : ℚ) * sampleRate) / ((len : ℚ) * 2)
              * (x :: xs).getD (j + 1) 0 =
            (((i + 1 + j : ℕ) : ℚ) * sampleRate) / ((len : ℚ) * 2) * xs.getD j 0 := by
        intro j
        rw [hgd]
        have hnat : i + (j + 1) = i + 1 + j := by omega
        rw [hnat]
      rw [Finset.sum_congr rfl (fun j _ => hsum j)]
      have h0 : (((i + 0 : ℕ) : ℚ) * sampleRate) / ((len : ℚ) * 2)
          * (x :: xs).getD 0 0 = ((i : ℚ) * sampleRate) / ((len : ℚ) * 2) * x := by
        norm_num
      rw [h0]
      ring

theorem calculateSpectralCentroid_eq_specCentroid (spectrum : List ℚ)
    (sampleRate : ℚ) :
    calculateSpectralCentroid spectrum sampleRate =
      specCentroid spectrum sampleRate := by
  rw [calculateSpectralCentroid, specCentroid]
  by_cases hsum : 0 < spectrum.sum
  · rw [if_pos hsum, if_pos hsum, weightedFreqSum_eq_sum]
    congr 1
    apply Finset.sum_congr rfl
    intro j _
    simp [binFrequency]
  · rw [if_neg hsum, if_neg hsum]

/-! ### Non-negativity of the averaged spectrum -/

theorem zipWith_add_nonneg :
    ∀ {a b : List ℚ}, (∀ x ∈ a, 0 ≤ x) → (∀ x ∈ b, 0 ≤ x) →
      ∀ x ∈ List.zipWith (· + ·) a b, 0 ≤ x
  | [], _, _, _ => by simp
  | _ :: _, [], _, _ => by simp
  | a :: as, b :: bs, ha, hb => by
      intro x hx
      rcases List.mem_cons.mp hx with rfl | hx
      · exact add_nonneg (ha a (List.mem_cons_self a as)) (hb b (List.mem_cons_self b bs))
      · exact zipWith_add_nonneg (fun y hy => ha y (List.mem_cons_of_mem a hy))
          (fun y hy => hb y (List.mem_cons_of_mem b hy)) x hx

theorem foldl_zipWith_nonneg :
    ∀ (specs : List (List ℚ)) (acc : List ℚ), (∀ x ∈ acc, 0 ≤ x) →
      (∀ s ∈ specs, ∀ x ∈ s, 0 ≤ x) →
      ∀ x ∈ specs.foldl (fun a s => List.zipWith (· + ·) a s) acc, 0 ≤ x
  | [], _, hacc, _ => hacc
  | s :: specs, acc, hacc, hs => by
      rw [List.foldl_cons]
      exact foldl_zipWith_nonneg specs _
        (zipWith_add_nonneg hacc (hs s (List.mem_cons_self s specs)))
        (fun t ht => hs t (List.mem_cons_of_mem s ht))

theorem performFFT_nonneg (data : List ℚ) : ∀ x ∈ performFFT data, 0 ≤ x := by
  intro x hx
  rw [performFFT, List.mem_map] at hx
  obtain ⟨y, _, rfl⟩ := hx
  exact abs_nonneg y

theorem avgSpectrumOf_nonneg (channelData : List ℚ) :
    ∀ x ∈ avgSpectrumOf channelData, 0 ≤ x := by
  intro x hx
  simp only [avgSpectrumOf, List.mem_map] at hx
  obtain ⟨v, hv, rfl⟩ := hx
  have hvnn : 0 ≤ v := by
    refine foldl_zipWith_nonneg _ _ ?_ ?_ v hv
    · intro y hy
      rw [List.eq_of_mem_replicate hy]
    · intro s hs
      rw [List.mem_map] at hs
      obtain ⟨i, _, rfl⟩ := hs
      exact performFFT_nonneg _
  exact div_nonneg hvnn (by positivity)

/-- C5: brightness equals centroid / (sampleRate / 2) and lies in
[0, 1], and the centroid is the magnitude-weighted mean bin frequency of
the averaged spectrum (0 when the total magnitude is not positive). -/
theorem claim_C5 (channelData : List ℚ) (sampleRate : ℚ)
    (hsr : 0 < sampleRate) :
    (analyzeSpectrum channelData sampleRate).brightness =
      (analyzeSpectrum channelData sampleRate).centroid / (sampleRate / 2)
    ∧ 0 ≤ (analyzeSpectrum channelData sampleRate).brightness
    ∧ (analyzeSpectrum channelData sampleRate).brightness ≤ 1
    ∧ (analyzeSpectrum channelData sampleRate).centroid =
        specCentroid (analyzeSpectrum channelData sampleRate).spectrum sampleRate := by
  have hbounds := calculateSpectralCentroid_bounds
    (avgSpectrumOf channelData) sampleRate (le_of_lt hsr)
    (avgSpectrumOf_nonneg channelData)
  refine ⟨?_, ?_, ?_, ?_⟩
  · rw [analyzeSpectrum_brightness, analyzeSpectrum_centroid]
  · rw [analyzeSpectrum_brightness]
    exact div_nonneg hbounds.1 (by positivity)
  · rw [analyzeSpectrum_brightness, div_le_one (by positivity)]
    exact hbounds.2
  · rw [analyzeSpectrum_centroid, analyzeSpectrum_spectrum]
    exact calculateSpectralCentroid_eq_specCentroid _ _

/-- C5 witness: the empty window at sample rate 2. -/
theorem claim_C5_witness :
    (0 : ℚ) < 2
    ∧ ((analyzeSpectrum [] 2).brightness = (analyzeSpectrum [] 2).centroid / (2 / 2)
      ∧ 0 ≤ (analyzeSpectrum [] 2).brightness
      ∧ (analyzeSpectrum [] 2).brightness ≤ 1
      ∧ (analyzeSpectrum [] 2).centroid =
          specCentroid (analyzeSpectrum [] 2).spectrum 2) :=
  ⟨by norm_num, claim_C5 [] 2 (by norm_num)⟩

/-! ### Degenerate windows (no spectral frame fits) -/

theorem spectralWindowStarts_eq_nil {len : ℕ} (h : len ≤ 2048) :
    spectralWindowStarts len = [] := by
  rw [spectralWindowStarts]
  have : ∀ k, (decide (k * (2048 * 32) < len - 2048)) = false := by
    intro k
    simp [Nat.sub_eq_zero_of_le h]
  rw [List.filter_congr (fun k _ => this k)]
  simp

/-- A silent (all-zero) spectrum has centroid 0: the total magnitude is
0, so the guard of `calculateSpectralCentroid` falls to the 0 branch. -/
theorem calculateSpectralCentroid_replicate_zero (n : ℕ) (sampleRate : ℚ) :
    calculateSpectralCentroid (List.replicate n 0) sampleRate = 0 := by
  rw [calculateSpectralCentroid]
  simp

/-- C9: a window of at most 2048 samples admits no spectral frame;
`analyzeSpectrum` still returns, with centroid, rolloff and brightness
all 0. -/
theorem claim_C9 (channelData : List ℚ) (sampleRate : ℚ)
    (h : channelData.length ≤ 2048) :
    (analyzeSpectrum channelData sampleRate).centroid = 0
    ∧ (analyzeSpectrum channelData sampleRate).rolloff = 0
    ∧ (analyzeSpectrum channelData sampleRate).brightness = 0 := by
  have havg : avgSpectrumOf channelData = List.replicate (2048 / 2) (0 : ℚ) := by
    simp only [avgSpectrumOf, spectralWindowStarts_eq_nil h, List.map_nil,
      List.foldl_nil, List.length_nil, Nat.cast_zero, List.map_replicate,
      zero_div, div_zero]
  have hcent : calculateSpectralCentroid (List.replicate (2048 / 2) (0 : ℚ))
      sampleRate = 0 := calculateSpectralCentroid_replicate_zero (2048 / 2) sampleRate
  refine ⟨?_, ?_, ?_⟩
  · rw [analyzeSpectrum_centroid, havg, hcent]
  · rw [analyzeSpectrum_rolloff, havg]
    exact calculateSpectralRolloff_replicate_zero (2048 / 2) sampleRate
  · rw [analyzeSpectrum_brightness, havg, hcent, zero_div]

/-- C9 witness: the empty window. -/
theorem claim_C9_witness :
    ([] : List ℚ).length ≤ 2048
    ∧ ((analyzeSpectrum [] 2).centroid = 0
      ∧ (analyzeSpectrum [] 2).rolloff = 0
      ∧ (analyzeSpectrum [] 2).brightness = 0) :=
  ⟨by norm_num, claim_C9 [] 2 (by norm_num)⟩

/-! ## Signal preprocessor (src/index.js:927-932) -/

/-- The trimming step of `analyzeAudioFile`:
`trimmedSamples = Math.min(channelData.length, Math.floor(sampleRate * 15))`,
`trimmedChannel = channelData.slice(0, trimmedSamples)` with
`maxDurationSec = 15` (sample rates are integral Hz, so
`Math.floor(sampleRate * 15) = sampleRate * 15`). -/
def trimChannel (channelData : List ℚ) (sampleRate : ℕ) : List ℚ :=
  channelData.take (min channelData.length (sampleRate * 15))

/-- C6: preprocessing truncates the decoded signal to exactly
`min(totalSamples, sampleRate × maxDurationSec)` samples taken from
offset 0 — the result is a prefix of the input, so every kept sample is
unchanged and nothing is resampled. -/
theorem claim_C6 (channelData : List ℚ) (sampleRate : ℕ) :
    (trimChannel channelData sampleRate).length =
      min channelData.length (sampleRate * 15)
    ∧ trimChannel channelData sampleRate <+: channelData := by
  constructor
  · rw [trimChannel, List.length_take]
    omega
  · exact List.take_prefix _ _

/-! ## Pitch tracker sampling loop (src/index.js:965-987) -/

/-- Frame start offsets of the pitch loop: `i = 0, sampleSize * 64, …`
while `i < trimmedChannel.length - sampleSize` (`sampleSize = 4096`),
breaking after `maxFrames = 20` frames.  As for the spectral loop, the
index grows monotonically, so the visited offsets are exactly the first
at most 20 multiples of `4096 * 64` below the bound (truncated
subtraction matches the JavaScript loop, which does not run when the
length is at most `sampleSize`). -/
def pitchFrameStarts (len : ℕ) : List ℕ :=
  ((List.range 20).filter (fun k => decide (k * (4096 * 64) < len - 4096))).map
    (fun k => k * (4096 * 64))

/-- The pitch sampling loop: run the detector on each 4096-sample frame
and keep `(pitch, i / sampleRate)` exactly when `0 < pitch < 2000`
(src/index.js:971-987; the source pushes into the parallel arrays
`pitches` and `timestamps`, modelled here as one list of pairs).  The
detector `audioAnalyzer.detectPitch` lives in `audioAnalyzer.js`,
outside this file, and is taken as a parameter. -/
def pitchScan (detectPitch : List ℚ → ℚ) (channelData : List ℚ)
    (sampleRate : ℕ) : List (ℚ × ℚ) :=
  (pitchFrameStarts channelData.length).filterMap (fun i =>
    let pitch := detectPitch ((channelData.drop i).take 4096)
    if 0 < pitch ∧ pitch < 2000 then some (pitch, (i : ℚ) / (sampleRate : ℚ))
    else none)

/-- A filter of `List.range` by a downward-closed predicate is an
initial segment. -/
theorem filter_range_eq_range {p : ℕ → Bool}
    (hp : ∀ j k : ℕ, j ≤ k → p k = true → p j = true) :
    ∀ n : ℕ, ∃ m, m ≤ n ∧ (List.range n).filter p = List.range m
  | 0 => ⟨0, le_refl 0, rfl⟩
  | n + 1 => by
      obtain ⟨m, hm, hfil⟩ := filter_range_eq_range hp n
      rw [List.range_succ, List.filter_append]
      by_cases hn : p n = true
      · have hall : (List.range n).filter p = List.range n :=
          List.filter_eq_self.mpr (fun a ha =>
            hp a n (le_of_lt (List.mem_range.mp ha)) hn)
        exact ⟨n + 1, le_refl _, by rw [hall, List.filter_cons, if_pos hn,
          List.filter_nil, ← List.range_succ]⟩
      · exact ⟨m, le_trans hm (Nat.le_succ n), by
          rw [hfil, List.filter_cons, if_neg hn, List.filter_nil,
            List.append_nil]⟩

theorem pitchScan_eq_filter (detectPitch : List ℚ → ℚ) (channelData : List ℚ)
    (sampleRate : ℕ) :
    ∀ l : List ℕ,
      (l.filterMap (fun i =>
        let pitch := detectPitch ((channelData.drop i).take 4096)
        if 0 < pitch ∧ pitch < 2000 then
          some (pitch, (i : ℚ) / (sampleRate : ℚ))
        else none)) =
      (l.map (fun i => (detectPitch ((channelData.drop i).take 4096),
          (i : ℚ) / (sampleRate : ℚ)))).filter
        (fun p => decide (0 < p.1 ∧ p.1 < 2000))
  | [] => rfl
  | a :: l => by
      simp only [List.filterMap_cons, List.map_cons, List.filter_cons]
      by_cases h : 0 < detectPitch ((channelData.drop a).take 4096) ∧
          detectPitch ((channelData.drop a).take 4096) < 2000
      · simp [h, pitchScan_eq_filter detectPitch channelData sampleRate l]
      · simp [h, pitchScan_eq_filter detectPitch channelData sampleRate l]

/-- C8: the whole-clip pitch sampling walks at the fixed stride
`4096 * 64` from offset 0, examines at most 20 frames, and the resulting
series holds exactly the detections with `0 < f < 2000` paired with
their timestamps — out-of-range detections are dropped from the filter
of the full detection list, never substituted. -/
theorem claim_C8 (detectPitch : List ℚ → ℚ) (channelData : List ℚ)
    (sampleRate : ℕ) :
    (∃ m, m ≤ 20 ∧ pitchFrameStarts channelData.length =
        (List.range m).map (fun k => k * (4096 * 64)))
    ∧ (pitchScan detectPitch channelData sampleRate).length ≤ 20
    ∧ ((pitchScan detectPitch channelData sampleRate).all
        fun p => decide (0 < p.1 ∧ p.1 < 2000)) = true
    ∧ pitchScan detectPitch channelData sampleRate =
        ((pitchFrameStarts channelData.length).map
          (fun i => (detectPitch ((channelData.drop i).take 4096),
            (i : ℚ) / (sampleRate : ℚ)))).filter
          (fun p => decide (0 < p.1 ∧ p.1 < 2000)) := by
  have hdc : ∀ j k : ℕ, j ≤ k →
      (decide (k * (4096 * 64) < channelData.length - 4096)) = true →
      (decide (j * (4096 * 64) < channelData.length - 4096)) = true := by
    intro j k hjk hk
    rw [decide_eq_true_eq] at hk ⊢
    exact lt_of_le_of_lt (Nat.mul_le_mul_right _ hjk) hk
  obtain ⟨m, hm, hfil⟩ := filter_range_eq_range hdc 20
  have hstarts : pitchFrameStarts channelData.length =
      (List.range m).map (fun k => k * (4096 * 64)) := by
    rw [pitchFrameStarts, hfil]
  have hlenstarts : (pitchFrameStarts channelData.length).length = m := by
    rw [hstarts, List.length_map, List.length_range]
  refine ⟨⟨m, hm, hstarts⟩, ?_, ?_, ?_⟩
  · calc (pitchScan detectPitch channelData sampleRate).length
        ≤ (pitchFrameStarts channelData.length).length :=
          List.length_filterMap_le _ _
      _ ≤ 20 := by rw [hlenstarts]; exact hm
  · rw [List.all_eq_true]
    intro p hp
    rw [pitchScan, List.mem_filterMap] at hp
    obtain ⟨i, _, heq⟩ := hp
    by_cases h : 0 < detectPitch ((channelData.drop i).take 4096) ∧
        detectPitch ((channelData.drop i).take 4096) < 2000
    · rw [if_pos h] at heq
      cases heq
      simpa using h
    · rw [if_neg h] at heq
      cases heq
  · exact pitchScan_eq_filter detectPitch channelData sampleRate _

/-! ## Analysis orchestrator (src/index.js:909-1068)

`analyzeAudioFile` observes the `analysisCancelled` flag cooperatively
at the stage boundaries src/index.js:939 (before rhythm), 961 (before
pitch), 972 (before each pitch frame) and 992 (before spectral); a set
flag makes it `throw new Error('Analysis cancelled')`.  Every throw —
cancellation included — lands in the single `catch` block
(src/index.js:1056-1067), which renders the "❌ Analysis Failed" panel
with the error's message.  The stage implementations that live outside
`index.js` (`audioAnalyzer.analyzeRhythm`, `audioAnalyzer.detectPitch`,
`audioAnalyzer.identifyScale` in `audioAnalyzer.js`, the table of
`getAllCultures` in `culturesData.js`) are taken as parameters. -/

/-- The terminal rendering of a run: either the results UI is populated
(`done`) or the shared `catch` block renders the "Analysis Failed"
panel carrying the thrown error's message.  These are the only two
terminal renderings in the source; no cancellation-specific one
exists. -/
inductive Outcome where
  | done : Outcome
  | failed (message : String) : Outcome
deriving DecidableEq

/-- What a run leaves behind: the outcome plus the populated analysis
data — `currentAnalysisData` and the chart/insight renderings
(src/index.js:1031-1050), all `none` until the assignments after the
spectral stage run. -/
structure RunState where
  outcome : Outcome
  rhythmData : Option RhythmProfile
  pitchData : Option (List (ℚ × ℚ))
  spectralData : Option SpectralProfile
  scaleData : Option ScaleMatch
  culturalData : Option (List CultureMatch)

/-- The state left by the shared `catch` block after a cancellation
throw: the failure panel with message `'Analysis cancelled'`, nothing
populated. -/
def cancelThrowState : RunState :=
  ⟨Outcome.failed "Analysis cancelled", none, none, none, none, none⟩

/-- The cooperative-cancellation skeleton of `analyzeAudioFile`
(src/index.js:909-1068).  `cancelFlag n` is the value the
`analysisCancelled` flag is observed to hold at the `n`-th cooperative
check, numbered in execution order: 0 at line 939, 1 at line 961,
`2 + k` at line 972 before pitch frame `k`, and `2 + frames` at line
992. -/
def analyzeAudioFileRun (cancelFlag : ℕ → Bool)
    (channelData : List ℚ) (sampleRate : ℕ)
    (analyzeRhythm : List ℚ → RhythmProfile)
    (detectPitch : List ℚ → ℚ)
    (identifyScale : List ℚ → ScaleMatch)
    (cultureTable : List CultureRecord) : RunState :=
  let trimmedChannel := trimChannel channelData sampleRate
  if cancelFlag 0 then cancelThrowState
  else
    let rhythmAnalysis := analyzeRhythm trimmedChannel
    if cancelFlag 1 then cancelThrowState
    else
      let frames := pitchFrameStarts trimmedChannel.length
      if (List.range frames.length).any (fun k => cancelFlag (2 + k)) then
        cancelThrowState
      else
        let pitches := pitchScan detectPitch trimmedChannel sampleRate
        if cancelFlag (2 + frames.length) then cancelThrowState
        else
          let spectralAnalysis := analyzeSpectrum trimmedChannel (sampleRate : ℚ)
          let scaleAnalysis := identifyScale (pitches.map Prod.fst)
          let culturalMatches := topMatches rhythmAnalysis scaleAnalysis cultureTable
          ⟨Outcome.done, some rhythmAnalysis, some pitches,
            some spectralAnalysis, some scaleAnalysis, some culturalMatches⟩

/-- C2 counterexample: with the cancellation flag set from the start —
cancellation requested before the Pitch stage — the run terminates in
`Outcome.failed "Analysis cancelled"`: the shared Failed rendering, not
a distinct Cancelled outcome (the source has no such outcome). -/
theorem claim_C2_counterexample :
    (analyzeAudioFileRun (fun _ => true) [] 44100
        (fun _ => ⟨0, 0, false⟩) (fun _ => 0)
        (fun _ => ⟨"Unknown", 0⟩) []).outcome =
      Outcome.failed "Analysis cancelled" := rfl

/-- C2 (amended): if the flag is observed set at either cooperative
check preceding the Pitch stage, the run throws `'Analysis cancelled'`,
reported through the shared Failed rendering (distinguishable from a
genuine failure only by the message), and no pitch, spectral, scale or
cultural data is populated. -/
theorem claim_C2 (cancelFlag : ℕ → Bool) (channelData : List ℚ)
    (sampleRate : ℕ) (rhythmStage : List ℚ → RhythmProfile)
    (pitchStage : List ℚ → ℚ) (scaleStage : List ℚ → ScaleMatch)
    (cultureTable : List CultureRecord)
    (h : cancelFlag 0 = true ∨ cancelFlag 1 = true) :
    (analyzeAudioFileRun cancelFlag channelData sampleRate rhythmStage
        pitchStage scaleStage cultureTable).outcome =
      Outcome.failed "Analysis cancelled"
    ∧ (analyzeAudioFileRun cancelFlag channelData sampleRate rhythmStage
        pitchStage scaleStage cultureTable).pitchData = none
    ∧ (analyzeAudioFileRun cancelFlag channelData sampleRate rhythmStage
        pitchStage scaleStage cultureTable).spectralData = none
    ∧ (analyzeAudioFileRun cancelFlag channelData sampleRate rhythmStage
        pitchStage scaleStage cultureTable).scaleData = none
    ∧ (analyzeAudioFileRun cancelFlag channelData sampleRate rhythmStage
        pitchStage scaleStage cultureTable).culturalData = none := by
  have hrun : analyzeAudioFileRun cancelFlag channelData sampleRate rhythmStage
      pitchStage scaleStage cultureTable = cancelThrowState := by
    rcases h with h0 | h1
    · simp only [analyzeAudioFileRun, h0, if_true]
    · by_cases h0 : cancelFlag 0 = true
      · simp only [analyzeAudioFileRun, h0, if_true]
      · simp only [analyzeAudioFileRun, h0, h1, Bool.false_eq_true,
          if_false, if_true]
  rw [hrun]
  exact ⟨rfl, rfl, rfl, rfl, rfl⟩

/-- C2 witness: the amended claim at the always-set flag. -/
theorem claim_C2_witness :
    ((fun _ : ℕ => true) 0 = true ∨ (fun _ : ℕ => true) 1 = true)
    ∧ ((analyzeAudioFileRun (fun _ => true) [] 44100
          (fun _ => ⟨0, 0, false⟩) (fun _ => 0)
          (fun _ => ⟨"Unknown", 0⟩) []).outcome =
        Outcome.failed "Analysis cancelled"
      ∧ (analyzeAudioFileRun (fun _ => true) [] 44100
          (fun _ => ⟨0, 0, false⟩) (fun _ => 0)
          (fun _ => ⟨"Unknown", 0⟩) []).pitchData = none
      ∧ (analyzeAudioFileRun (fun _ => true) [] 44100
          (fun _ => ⟨0, 0, false⟩) (fun _ => 0)
          (fun _ => ⟨"Unknown", 0⟩) []).spectralData = none
      ∧ (analyzeAudioFileRun (fun _ => true) [] 44100
          (fun _ => ⟨0, 0, false⟩) (fun _ => 0)
          (fun _ => ⟨"Unknown", 0⟩) []).scaleData = none
      ∧ (analyzeAudioFileRun (fun _ => true) [] 44100
          (fun _ => ⟨0, 0, false⟩) (fun _ => 0)
          (fun _ => ⟨"Unknown", 0⟩) []).culturalData = none) :=
  ⟨Or.inl rfl,
    claim_C2 (fun _ => true) [] 44100 (fun _ => ⟨0, 0, false⟩) (fun _ => 0)
      (fun _ => ⟨"Unknown", 0⟩) [] (Or.inl rfl)⟩

end WorldMusicLab
